import Mathlib

/-!
Verification development for the mm2024-mcp repository: a shallow embedding of
the MediaMonkey automation adapter (menu-path resolution and invocation, label
normalization, caption matching, configuration coercion and persistence, and
the playback-facing client helpers), together with theorems settling the
spec's claims about that code.

Python strings are embedded as `String`, nullable values as `Option`, COM
attribute reads that may raise as `Option`/`Except`, and the untyped values
travelling through the COM boundary as `PyVal`.
-/

/-- Dynamic values crossing the COM / INI boundary: Python `str`, `int`,
`bool` and `None`. -/
inductive PyVal where
  | str (s : String)
  | int (n : Int)
  | boolean (b : Bool)
  | pynone
deriving DecidableEq

/-- Python `str(...)` on a `PyVal` (Python renders booleans as `True`/`False`
and `None` as `"None"`). -/
def pyStr : PyVal → String
  | .str s => s
  | .int n => toString n
  | .boolean b => if b then "True" else "False"
  | .pynone => "None"

/-- Whitespace predicate used to embed Python `str.strip()`. -/
def wsp (c : Char) : Bool := c.isWhitespace

/-- Python `str.strip()` on a character list: drop whitespace from both ends. -/
def trimL (cs : List Char) : List Char :=
  List.rdropWhile wsp (List.dropWhile wsp cs)

/-- Lower-casing of a character list (Python `str.lower()` restricted to the
ASCII range, matching `Char.toLower`). -/
def lowerL (cs : List Char) : List Char := cs.map Char.toLower

/-- Python `str.strip()` on strings. -/
def pyStrip (s : String) : String := String.mk (trimL s.data)

/-- Python `str.strip().lower()`, the canonical form compared against the
truthy tokens. -/
def pyCanon (s : String) : String := String.mk (lowerL (trimL s.data))

/-- Value of a non-empty all-digit character run, `none` otherwise. -/
def digitsVal (cs : List Char) : Option Nat :=
  if cs = [] then none
  else if cs.all Char.isDigit then
    some (cs.foldl (fun acc c => acc * 10 + (c.toNat - 48)) 0)
  else none

/-- Python `int(...)` on a string: optional surrounding whitespace, optional
sign, decimal digits; `none` where Python raises `ValueError`. -/
def pyToInt (s : String) : Option Int :=
  match trimL s.data with
  | [] => none
  | '-' :: rest => (digitsVal rest).map fun n => -(n : Int)
  | '+' :: rest => (digitsVal rest).map fun n => (n : Int)
  | cs => (digitsVal cs).map fun n => (n : Int)

/-- Python `int(...)` on a `PyVal`, returning `none` where Python would raise
`TypeError`/`ValueError` (non-numeric strings, `None`). -/
def pyInt : PyVal → Option Int
  | .str s => pyToInt s
  | .int n => some n
  | .boolean b => some (if b then 1 else 0)
  | .pynone => none

/-- Removal of every accelerator marker `&` (Python `str.replace("&", "")`). -/
def ampFree (cs : List Char) : List Char := cs.filter (fun c => c ≠ '&')

/-- The three-dot ellipsis suffix. -/
def dotsEllipsis : List Char := ['.', '.', '.']

/-- Modelled from the spec: `_normalize_menu_label` is absent from `src`
(only its unit tests call it).  Spec §4.1: the caption is lower-cased,
trimmed, every mnemonic marker `&` is removed and a single trailing ellipsis
(three dots or the single ellipsis glyph) is stripped.  This is the core on
character lists. -/
def normalizeCore (cs : List Char) : List Char :=
  let t := trimL (lowerL (ampFree cs))
  if dotsEllipsis.isSuffixOf t then trimL (List.rdrop t 3)
  else if ['…'].isSuffixOf t then trimL (List.rdrop t 1)
  else t

/-- Modelled from the spec: `_normalize_menu_label` (missing from `src`),
lifted to nullable captions — `None` input yields `None` output. -/
def _normalize_menu_label : Option String → Option String
  | none => none
  | some s => some (String.mk (normalizeCore s.data))

/-- The three caption matching strategies exposed by `invoke_menu_item`. -/
inductive MatchStrategy where
  | exact
  | startswith
  | contains
deriving DecidableEq

/-- Modelled from the spec: `_caption_matches` is absent from `src` (only its
unit tests call it).  Spec §4.2: if either side is null the result is false;
`exact` is equality, `startswith` requires the candidate to begin with the
target, `contains` requires the target to occur inside the candidate. -/
def _caption_matches (candidate target : Option String) (strategy : MatchStrategy) : Bool :=
  match candidate, target with
  | some c, some t =>
    match strategy with
    | .exact => c == t
    | .startswith => t.data.isPrefixOf c.data
    | .contains => decide (t.data <:+: c.data)
  | _, _ => false

/-- A menu/toolbar node of the external object graph: caption (nullable),
enabled flag, the ordered trigger mechanisms (`true` = the mechanism
succeeds), and the child collection.  A `none` child slot models an index
whose COM `Item` access raises. -/
inductive MenuNode where
  | mk (caption : Option String) (enabled : Bool) (triggers : List Bool)
      (childSlots : List (Option MenuNode))

/-- Caption accessor. -/
def MenuNode.caption : MenuNode → Option String
  | .mk c _ _ _ => c

/-- Enabled accessor. -/
def MenuNode.enabled : MenuNode → Bool
  | .mk _ e _ _ => e

/-- Trigger-list accessor. -/
def MenuNode.triggers : MenuNode → List Bool
  | .mk _ _ t _ => t

/-- Child-slot accessor (`none` = the index raises on access). -/
def MenuNode.childSlots : MenuNode → List (Option MenuNode)
  | .mk _ _ _ cs => cs

/-- Modelled from the spec: `_iterate_menu_children` is absent from `src`
(only its unit tests call it).  Spec §4.3: enumerate the child collection in
native order, skipping any index whose access raises instead of aborting. -/
def _iterate_menu_children (m : MenuNode) : List MenuNode :=
  m.childSlots.filterMap id

/-- One resolution step: the first child (in enumeration order) whose
normalized caption matches the normalized requested caption. -/
def resolveStep (children : List MenuNode) (cap : String) (strategy : MatchStrategy) :
    Option MenuNode :=
  children.find? fun ch =>
    _caption_matches (_normalize_menu_label ch.caption) (_normalize_menu_label (some cap)) strategy

/-- Modelled from the spec: the path resolver inside `invoke_menu_item` is
absent from `src` (only the tool wrapper in `server.py` calls it).  Spec §4.4:
walk the requested captions root-to-leaf, first match wins, record the
matched child's raw caption; on a miss stop immediately and leave the
remaining positions null. -/
def resolvePath : MenuNode → List String → MatchStrategy →
    List (Option String) × Option MenuNode
  | node, [], _ => ([], some node)
  | node, c :: rest, strategy =>
    match resolveStep (_iterate_menu_children node) c strategy with
    | none => ((c :: rest).map fun _ => none, none)
    | some child =>
      let r := resolvePath child rest strategy
      (child.caption :: r.1, r.2)

/-- Mirror of `models.MenuInvocationResult`. -/
structure MenuInvocationResult where
  scope : String
  requested_path : List String
  matched_path : List (Option String)
  caption : Option String
  enabled : Bool
  executed : Bool
deriving DecidableEq

/-- Modelled from the spec: `MediaMonkeyClient.invoke_menu_item` is absent
from `src` (only the `server.py` tool calls it).  Spec §4.4–4.5: resolve the
scope root, walk the path, then — if fully resolved — refuse a disabled node
unless `allow_disabled`, otherwise try the trigger mechanisms in order and
report whether any succeeded; misses are normal results, never errors. -/
def invoke_menu_item (lookupScope : String → Option MenuNode) (scope : String)
    (path : List String) (strategy : MatchStrategy) (allow_disabled : Bool) :
    MenuInvocationResult :=
  match lookupScope scope with
  | none =>
    { scope := scope, requested_path := path, matched_path := path.map fun _ => none
      caption := none, enabled := false, executed := false }
  | some root =>
    let r := resolvePath root path strategy
    match r.2 with
    | none =>
      { scope := scope, requested_path := path, matched_path := r.1
        caption := none, enabled := false, executed := false }
    | some node =>
      if !node.enabled && !allow_disabled then
        { scope := scope, requested_path := path, matched_path := r.1
          caption := node.caption, enabled := node.enabled, executed := false }
      else
        { scope := scope, requested_path := path, matched_path := r.1
          caption := node.caption, enabled := node.enabled
          executed := node.triggers.any id }

/-- Declared INI value types of `set_config_value`. -/
inductive IniType where
  | string
  | int
  | bool
deriving DecidableEq

/-- Modelled from the spec: the defined set of truthy string tokens used by
the bool coercions (spec §4.6; the unit tests pin `"yes"`, `"true"` truthy
and `"0"`, `"nope"` falsy). -/
def truthyTokens : List String := ["1", "true", "yes", "y", "on"]

/-- Modelled from the spec: `_coerce_ini_result` is absent from `src` (only
its unit tests call it).  Spec §4.6: `bool` maps the truthy tokens to true
and everything else (including parse failure) to false, never raising; `int`
parses and falls back to the raw value on failure; `string` stringifies. -/
def _coerce_ini_result (raw : PyVal) (ty : IniType) : PyVal :=
  match ty with
  | .string => .str (pyStr raw)
  | .int =>
    match pyInt raw with
    | some n => .int n
    | none => raw
  | .bool => .boolean (truthyTokens.contains (pyCanon (pyStr raw)))

/-- Modelled from the spec: `_coerce_ini_input` is absent from `src` (only
its unit tests call it).  Spec §4.6: the inverse direction — stringify for
`string`, numeric parse for `int`, truthy-token normalization for `bool`. -/
def _coerce_ini_input (v : PyVal) (ty : IniType) : PyVal :=
  match ty with
  | .string => .str (pyStr v)
  | .int =>
    match pyInt v with
    | some n => .int n
    | none => v
  | .bool => .boolean (truthyTokens.contains (pyCanon (pyStr v)))

/-- Outcome of one call into the external store's write operation:
`sigMismatch` models `TypeError` from a signature/arity mismatch, `failure`
any genuine write error. -/
inductive WriteErr where
  | sigMismatch
  | failure (msg : String)
deriving DecidableEq

/-- Capability view of the external `SDB.IniFile` store over a state `σ`:
a write entry point with the optional flags argument, one without it, and the
optional `Apply`/`Flush` operations. -/
structure IniStore (σ : Type) where
  writeFlags : σ → String → String → PyVal → Nat → Except WriteErr σ
  writeBare : σ → String → String → PyVal → Except WriteErr σ
  hasApply : Bool
  hasFlush : Bool
  applyOp : σ → σ
  flushOp : σ → σ

/-- Modelled from the spec: `_write_ini_value` is absent from `src` (only its
unit tests call it).  Spec §4.6: attempt the write with the conventional
flags argument `0` first; retry without it only on a signature mismatch; a
genuine write error is propagated, not masked. -/
def _write_ini_value {σ : Type} (st : IniStore σ) (s : σ) (sec key : String)
    (v : PyVal) : Except WriteErr σ :=
  match st.writeFlags s sec key v 0 with
  | .error .sigMismatch => st.writeBare s sec key v
  | .ok s2 => .ok s2
  | .error (.failure m) => .error (.failure m)

/-- Persistence modes of `set_config_value`. -/
inductive PersistMode where
  | none
  | flush
  | apply
deriving DecidableEq

/-- Modelled from the spec: `_persist_ini_changes` is absent from `src` (only
its unit tests call it).  Spec §4.6: `none` does nothing; `flush` calls the
flush operation; `apply` calls apply-then-flush when both are exposed, else
whichever exists; returns whether a persistence call was issued. -/
def _persist_ini_changes {σ : Type} (st : IniStore σ) (s : σ) (mode : PersistMode) :
    σ × Bool :=
  match mode with
  | .none => (s, false)
  | .flush => if st.hasFlush then (st.flushOp s, true) else (s, false)
  | .apply =>
    if st.hasApply && st.hasFlush then (st.flushOp (st.applyOp s), true)
    else if st.hasApply then (st.applyOp s, true)
    else if st.hasFlush then (st.flushOp s, true)
    else (s, false)

/-- One recorded call of the recording store used to observe the dispatcher
(the Lean counterpart of the test's `_RecordingIni`). -/
structure RecCall where
  sec : String
  key : String
  v : PyVal
  flags : Option Nat
deriving DecidableEq

/-- Recording store mirroring `tests._RecordingIni`: the flags-accepting
write succeeds and records the call; the flags-less write raises
(`TypeError("flags required")`). -/
def recordingIni : IniStore (List RecCall) where
  writeFlags := fun s sec key v f => .ok (s ++ [⟨sec, key, v, some f⟩])
  writeBare := fun _ _ _ _ => .error (.failure "flags required")
  hasApply := true
  hasFlush := true
  applyOp := fun s => s ++ [⟨"Apply", "", .pynone, none⟩]
  flushOp := fun s => s ++ [⟨"Flush", "", .pynone, none⟩]

/-- Pre-call dispatch of `MediaMonkeyClient.run_js` (`media_monkey_client.py`
lines 152–178): either the payload is rejected (`ValueError`) before any call
into MediaMonkey, or the external `runJSCode` operation is called.  The
boolean records whether the callback harness was wrapped around the payload;
the harness text itself is opaque JavaScript data, not adapter logic. -/
inductive JsDispatch where
  | rejected (msg : String)
  | callEngine (wrappedInHarness : Bool) (code : String)
deriving DecidableEq

/-- Embeds `MediaMonkeyClient.run_js` up to its external `runJSCode` call:
an empty / whitespace-only payload raises `ValueError` before the call;
otherwise the payload (wrapped in the callback harness when
`expect_callback` is set and no `runJSCode_callback` marker is present) is
handed to the engine. -/
def run_js_precall (code : String) (expect_callback : Bool) : JsDispatch :=
  if pyStrip code = "" then .rejected "JavaScript payload cannot be empty"
  else if expect_callback && !(decide ("runJSCode_callback".data <:+: code.data)) then
    .callEngine true code
  else
    .callEngine false code

/-- The pydantic bound on `invoke_menu_item`'s `path` parameter in
`server.py` (`Field(min_length=1, max_length=8)`): the boundary rejects the
request before the tool body runs when this is false. -/
def menu_path_accepted (path : List String) : Bool :=
  decide (1 ≤ path.length) && decide (path.length ≤ 8)

/-- Minimal mirror of the `SDBPlayer` state touched by the embedded client
methods. -/
structure SDBPlayer where
  volume : Int
  playbackTime : Int
deriving DecidableEq

/-- Embeds `MediaMonkeyClient.set_volume` (`media_monkey_client.py` lines
114–119): clamp the requested level into 0–100 and write it to the player. -/
def set_volume (p : SDBPlayer) (level : Int) : SDBPlayer :=
  { p with volume := max 0 (min 100 level) }

/-- A COM object as seen through `getattr`: attribute reads either raise /
miss (`none`) or yield a dynamic value. -/
structure ComObj where
  attrs : String → Option PyVal

/-- Embeds `_safe_str`: a failed attribute read, a `None` value, or an
all-whitespace rendering yield `none`; otherwise the stripped text. -/
def _safe_str (obj : ComObj) (attr : String) : Option String :=
  match obj.attrs attr with
  | none => none
  | some .pynone => none
  | some v =>
    let text := pyStrip (pyStr v)
    if text = "" then none else some text

/-- Embeds `_safe_int`: a failed attribute read or a value Python's `int()`
rejects yields `none`. -/
def _safe_int (obj : ComObj) (attr : String) : Option Int :=
  match obj.attrs attr with
  | none => none
  | some v => pyInt v

/-- Mirror of `models.TrackInfo`. -/
structure TrackInfo where
  title : Option String
  artist : Option String
  album : Option String
  album_artist : Option String
  genre : Option String
  year : Option Int
  track_number : Option Int
  duration_ms : Option Int
  path : Option String
  rating : Option Int
  song_id : Option Int
deriving DecidableEq

/-- Embeds `MediaMonkeyClient._song_to_track`: `None` maps to `none`, any
other song object is converted field-wise through `_safe_str`/`_safe_int`. -/
def _song_to_track (song : Option ComObj) : Option TrackInfo :=
  match song with
  | none => none
  | some s =>
    some
      { title := _safe_str s "Title", artist := _safe_str s "ArtistName"
        album := _safe_str s "AlbumName", album_artist := _safe_str s "AlbumArtistName"
        genre := _safe_str s "Genre", year := _safe_int s "Year"
        track_number := _safe_int s "TrackOrder", duration_ms := _safe_int s "SongLength"
        path := _safe_str s "Path", rating := _safe_int s "Rating"
        song_id := _safe_int s "SongID" }

/-- The Now Playing collection: a reported `Count` and per-index `Item`
access that may raise (`.error`) or return a possibly-`None` song. -/
structure SongCollection where
  count : Int
  item : Nat → Except Unit (Option ComObj)

/-- The slice of `SDBPlayer` that `now_playing` reads: the optional
`CurrentSongList`. -/
structure PlayerQueue where
  currentSongList : Option SongCollection

/-- Loop body of `now_playing` at one queue index: the `try`/`except` around
`song_list.Item(index)` — a raising access yields nothing — followed by the
`_song_to_track` conversion and the truthiness filter. -/
def npItem (itm : ℕ → Except Unit (Option ComObj)) (index : ℕ) : Option TrackInfo :=
  match itm index with
  | .error _ => none
  | .ok song => _song_to_track song

/-- Embeds `MediaMonkeyClient.now_playing` (`media_monkey_client.py` lines
128–150): absent list or non-positive `Count` yield `[]`; otherwise the
first `max(0, min(limit, count))` indices are read, a raising index is
skipped with a warning, and surviving songs are converted to tracks. -/
def now_playing (player : PlayerQueue) (limit : Int) : List TrackInfo :=
  match player.currentSongList with
  | none => []
  | some sl =>
    if sl.count ≤ 0 then []
    else
      let safe_limit := (max 0 (min limit sl.count)).toNat
      (List.range safe_limit).filterMap (npItem sl.item)

/-! ## Helper lemmas on characters and trimming -/

/-- Round-trip of `Char.ofNat` on the lowercase ASCII letter range. -/
lemma char_toNat_ofNat_in (n : ℕ) (h1 : 97 ≤ n) (h2 : n ≤ 122) : (Char.ofNat n).toNat = n := by
  have hv : n.isValidChar := Or.inl (by omega)
  simp [Char.ofNat, hv, Char.ofNatAux, Char.toNat, UInt32.toNat, BitVec.toNat_ofNat]

/-- On an uppercase ASCII letter, `Char.toLower` adds 32. -/
lemma toLower_hi (c : Char) (h : 65 ≤ c.toNat ∧ c.toNat ≤ 90) :
    Char.toLower c = Char.ofNat (c.toNat + 32) := by
  simp [Char.toLower, h]

/-- Off the uppercase ASCII range, `Char.toLower` is the identity. -/
lemma toLower_lo (c : Char) (h : ¬(65 ≤ c.toNat ∧ c.toNat ≤ 90)) : Char.toLower c = c := by
  simp only [Char.toLower, ge_iff_le]
  split
  · exact absurd (by omega) h
  · rfl

/-- Numeric effect of `Char.toLower` on uppercase ASCII. -/
lemma toLower_toNat_lower (c : Char) (h : 65 ≤ c.toNat ∧ c.toNat ≤ 90) :
    (Char.toLower c).toNat = c.toNat + 32 := by
  rw [toLower_hi c h]
  exact char_toNat_ofNat_in _ (by omega) (by omega)

/-- Idempotence of `Char.toLower`. -/
lemma char_toLower_idem (c : Char) : Char.toLower (Char.toLower c) = Char.toLower c := by
  by_cases h : 65 ≤ c.toNat ∧ c.toNat ≤ 90
  · have hn := toLower_toNat_lower c h
    rw [toLower_lo (Char.toLower c) (by omega)]
  · rw [toLower_lo c h, toLower_lo c h]

/-- Lower-casing never produces the accelerator marker. -/
lemma toLower_ne_amp (c : Char) (h : c ≠ '&') : Char.toLower c ≠ '&' := by
  by_cases hc : 65 ≤ c.toNat ∧ c.toNat ≤ 90
  · have hn := toLower_toNat_lower c hc
    intro he
    rw [he] at hn
    have h38 : ('&').toNat = 38 := by decide
    omega
  · rw [toLower_lo c hc]
    exact h

/-- A trimmed list needs no further leading trim. -/
lemma dropWhile_trimL (l : List Char) : List.dropWhile wsp (trimL l) = trimL l := by
  unfold trimL
  rw [List.dropWhile_eq_self_iff]
  intro hl
  have hpre : List.rdropWhile wsp (List.dropWhile wsp l) <+: List.dropWhile wsp l :=
    List.rdropWhile_prefix wsp (List.dropWhile wsp l)
  have h0 : 0 < (List.dropWhile wsp l).length := lt_of_lt_of_le hl hpre.length_le
  have hself : List.dropWhile wsp (List.dropWhile wsp l) = List.dropWhile wsp l :=
    List.dropWhile_idempotent wsp l
  rw [List.dropWhile_eq_self_iff] at hself
  have hne := hself h0
  rw [List.get_eq_getElem] at hne ⊢
  rw [hpre.getElem hl]
  exact hne

/-- Python-style `strip` is idempotent. -/
lemma trimL_idem (l : List Char) : trimL (trimL l) = trimL l := by
  show List.rdropWhile wsp (List.dropWhile wsp (trimL l)) = trimL l
  rw [dropWhile_trimL]
  exact List.rdropWhile_idempotent wsp (List.dropWhile wsp l)

/-- Membership in a trimmed list implies membership in the original. -/
lemma mem_trimL {c : Char} {l : List Char} (h : c ∈ trimL l) : c ∈ l := by
  unfold trimL at h
  have hpre := List.rdropWhile_prefix wsp (List.dropWhile wsp l)
  exact (List.dropWhile_sublist wsp).subset (hpre.subset h)

/-- Membership in `rdrop` implies membership in the original. -/
lemma mem_rdrop {c : Char} {l : List Char} {n : ℕ} (h : c ∈ List.rdrop l n) : c ∈ l := by
  unfold List.rdrop at h
  exact List.mem_of_mem_take h

/-- Mapping `f` over `l` is the identity when `f` fixes every member. -/
lemma map_eq_self_of_mem {α : Type} {f : α → α} :
    ∀ {l : List α}, (∀ x ∈ l, f x = x) → l.map f = l
  | [], _ => rfl
  | a :: l, h => by
    rw [List.map_cons, h a (List.mem_cons_self a l),
      map_eq_self_of_mem fun x hx => h x (List.mem_cons_of_mem a hx)]

/-! ## Normalizer structure lemmas -/

/-- Every character surviving normalization is lowercase-fixed and is not the
accelerator marker. -/
lemma mem_normalizeCore {c : Char} {cs : List Char} (h : c ∈ normalizeCore cs) :
    Char.toLower c = c ∧ c ≠ '&' := by
  have ht : c ∈ trimL (lowerL (ampFree cs)) := by
    simp only [normalizeCore] at h
    split at h
    · exact mem_rdrop (mem_trimL h)
    · split at h
      · exact mem_rdrop (mem_trimL h)
      · exact h
  have hm : c ∈ lowerL (ampFree cs) := mem_trimL ht
  obtain ⟨c₀, hc₀, rfl⟩ := List.mem_map.mp hm
  have hamp : c₀ ≠ '&' := by simpa using (List.mem_filter.mp hc₀).2
  exact ⟨char_toLower_idem c₀, toLower_ne_amp c₀ hamp⟩

/-- Normalization output is already trimmed. -/
lemma trimL_normalizeCore (cs : List Char) : trimL (normalizeCore cs) = normalizeCore cs := by
  simp only [normalizeCore]
  split
  · exact trimL_idem _
  · split
    · exact trimL_idem _
    · exact trimL_idem _

/-- Normalization output is already lowercase. -/
lemma lowerL_normalizeCore (cs : List Char) : lowerL (normalizeCore cs) = normalizeCore cs :=
  map_eq_self_of_mem fun _ hx => (mem_normalizeCore hx).1

/-- Normalization output contains no accelerator marker. -/
lemma ampFree_normalizeCore (cs : List Char) : ampFree (normalizeCore cs) = normalizeCore cs := by
  unfold ampFree
  rw [List.filter_eq_self]
  intro a ha
  simpa using (mem_normalizeCore ha).2

/-- Any list that is amp-free, lowercase, trimmed and carries no residual
trailing ellipsis is a fixpoint of `normalizeCore`. -/
lemma normalizeCore_fix (l : List Char) (ha : ampFree l = l) (hl : lowerL l = l)
    (ht : trimL l = l) (h1 : dotsEllipsis.isSuffixOf l = false)
    (h2 : List.isSuffixOf ['…'] l = false) : normalizeCore l = l := by
  have hcore : trimL (lowerL (ampFree l)) = l := by rw [ha, hl, ht]
  simp only [normalizeCore, hcore, h1, h2]
  simp

/-- Idempotence of `normalizeCore` whenever one pass does not leave a
trailing ellipsis behind. -/
lemma normalizeCore_idem (cs : List Char)
    (h1 : dotsEllipsis.isSuffixOf (normalizeCore cs) = false)
    (h2 : List.isSuffixOf ['…'] (normalizeCore cs) = false) :
    normalizeCore (normalizeCore cs) = normalizeCore cs :=
  normalizeCore_fix _ (ampFree_normalizeCore cs) (lowerL_normalizeCore cs)
    (trimL_normalizeCore cs) h1 h2

/-! ## Claim theorems: normalization, matching, enumeration -/

/-- C4 (counterexample): label normalization is **not** idempotent on every
caption — a caption ending in two stacked ellipses loses one ellipsis per
pass, so normalizing `"File......"` twice differs from normalizing it once. -/
theorem c4_counterexample :
    _normalize_menu_label (_normalize_menu_label (some "File......"))
      ≠ _normalize_menu_label (some "File......") := by decide

/-- C4 (amended): a null caption normalizes to null, and normalization is
idempotent on every caption whose normalized form does not itself still end
in an ellipsis (`...` or `…`) — the only failures are captions with stacked
trailing ellipses, where each pass strips exactly one ellipsis. -/
theorem c4_normalize_null_and_idempotent :
    _normalize_menu_label none = none ∧
    ∀ s : String,
      dotsEllipsis.isSuffixOf (normalizeCore s.data) = false →
      List.isSuffixOf ['…'] (normalizeCore s.data) = false →
      _normalize_menu_label (_normalize_menu_label (some s)) = _normalize_menu_label (some s) := by
  refine ⟨rfl, fun s h1 h2 => ?_⟩
  show some (String.mk (normalizeCore (normalizeCore s.data)))
    = some (String.mk (normalizeCore s.data))
  rw [normalizeCore_idem s.data h1 h2]

/-- C4 witness: the amended idempotence applied to the caption `"&File..."`
from the repository's unit test. -/
theorem c4_witness :
    (dotsEllipsis.isSuffixOf (normalizeCore ("&File...").data) = false) ∧
    (List.isSuffixOf ['…'] (normalizeCore ("&File...").data) = false) ∧
    _normalize_menu_label (_normalize_menu_label (some "&File..."))
      = _normalize_menu_label (some "&File...") :=
  ⟨by decide, by decide,
    c4_normalize_null_and_idempotent.2 "&File..." (by decide) (by decide)⟩

/-- C3: for every strategy, the caption matcher returns false whenever either
side is null; being a total Lean function it is deterministic, side-effect
free and never raises. -/
theorem c3_caption_matches_null_is_false :
    ∀ (strategy : MatchStrategy) (candidate target : Option String),
      candidate = none ∨ target = none →
      _caption_matches candidate target strategy = false := by
  intro strategy candidate target h
  rcases h with h | h
  · subst h
    cases target <;> rfl
  · subst h
    cases candidate <;> rfl

/-- C3 witness: the null-candidate case at a concrete pair. -/
theorem c3_witness :
    ((some "play" : Option String) = none ∨ (none : Option String) = none) ∧
    _caption_matches (some "play") none MatchStrategy.exact = false :=
  ⟨Or.inr rfl, c3_caption_matches_null_is_false .exact (some "play") none (Or.inr rfl)⟩

/-- C2: enumerating a node's children yields exactly the children at the
indices whose access succeeds, in native order: a raising slot is skipped
without affecting the others, and a collection whose accesses all succeed
enumerates to precisely its children. -/
theorem c2_iterate_children_skips_failing_index :
    ∀ (cap : Option String) (en : Bool) (tr : List Bool)
      (xs ys : List (Option MenuNode)) (cs : List MenuNode),
      _iterate_menu_children (.mk cap en tr (xs ++ none :: ys)) =
        _iterate_menu_children (.mk cap en tr xs) ++ _iterate_menu_children (.mk cap en tr ys) ∧
      _iterate_menu_children (.mk cap en tr (cs.map some)) = cs := by
  intro cap en tr xs ys cs
  constructor
  · simp [_iterate_menu_children, MenuNode.childSlots]
  · simp [_iterate_menu_children, MenuNode.childSlots, List.filterMap_map]

/-! ## Path resolver structure lemmas -/

/-- The matcher rejects a null candidate under every strategy. -/
lemma caption_matches_none_candidate (t : Option String) (st : MatchStrategy) :
    _caption_matches none t st = false := by
  cases t <;> rfl

/-- A child selected by a resolution step carries a non-null raw caption. -/
lemma resolveStep_caption {children : List MenuNode} {cap : String} {st : MatchStrategy}
    {child : MenuNode} (h : resolveStep children cap st = some child) :
    ∃ s, child.caption = some s := by
  have hp := List.find?_some h
  cases hc : child.caption with
  | some s => exact ⟨s, rfl⟩
  | none =>
    rw [hc] at hp
    rw [show _normalize_menu_label none = none from rfl] at hp
    rw [caption_matches_none_candidate] at hp
    cases hp

/-- The matched-path prefix produced by the resolver: a run of non-null raw
captions followed by nulls filling up to the requested length. -/
lemma resolvePath_shape :
    ∀ (path : List String) (root : MenuNode) (st : MatchStrategy),
      ∃ pre : List (Option String),
        (resolvePath root path st).1 = pre ++ List.replicate (path.length - pre.length) none ∧
        (∀ x ∈ pre, x ≠ none) ∧ pre.length ≤ path.length := by
  intro path
  induction path with
  | nil =>
    intro root st
    exact ⟨[], by simp [resolvePath], by simp, by simp⟩
  | cons c rest ih =>
    intro root st
    cases hstep : resolveStep (_iterate_menu_children root) c st with
    | none =>
      refine ⟨[], ?_, by simp, by simp⟩
      simp only [resolvePath, hstep]
      simp [List.map_const', List.replicate_succ]
    | some child =>
      obtain ⟨pre, h1, h2, h3⟩ := ih child st
      obtain ⟨s, hs⟩ := resolveStep_caption hstep
      refine ⟨child.caption :: pre, ?_, ?_, ?_⟩
      · simp only [resolvePath, hstep]
        simp only [List.cons_append, List.length_cons]
        rw [Nat.succ_sub_succ]
        simpa using h1
      · intro x hx
        rcases List.mem_cons.mp hx with hx | hx
        · rw [hx, hs]
          exact fun hn => Option.noConfusion hn
        · exact h2 x hx
      · simpa using Nat.succ_le_succ h3

/-- Length of a matched path of the run/nulls shape. -/
lemma shape_length {mp pre : List (Option String)} {n : ℕ}
    (he : mp = pre ++ List.replicate (n - pre.length) none) (hle : pre.length ≤ n) :
    mp.length = n := by
  subst he
  simp only [List.length_append, List.length_replicate]
  omega

/-- A run of non-nulls followed by nulls is prefix-monotone: a null entry is
never followed by a non-null one. -/
lemma shape_mono {mp pre : List (Option String)} {k : ℕ}
    (he : mp = pre ++ List.replicate k none) (hp : ∀ x ∈ pre, x ≠ none) :
    ∀ i j : ℕ, i ≤ j → j < mp.length → mp[i]? = some none → mp[j]? = some none := by
  subst he
  intro i j hij hj hi
  have hilen : pre.length ≤ i := by
    by_contra hlt
    push_neg at hlt
    rw [List.getElem?_append, if_pos hlt] at hi
    exact hp none (List.getElem?_mem hi) rfl
  have hjlen : pre.length ≤ j := le_trans hilen hij
  rw [List.getElem?_append_right hjlen, List.getElem?_replicate]
  rw [List.length_append, List.length_replicate] at hj
  rw [if_pos (by omega)]

/-! ## Claim theorems: path resolution and invocation -/

/-- C1: for every menu resolution request the returned `matched_path` has the
same length as the requested path, and a null entry at position `i` forces a
null entry at every later position — no non-null entry ever follows a null
one. -/
theorem c1_matched_path_length_and_prefix_monotone :
    ∀ (lookupScope : String → Option MenuNode) (scope : String) (path : List String)
      (strategy : MatchStrategy) (allow_disabled : Bool),
      ((invoke_menu_item lookupScope scope path strategy allow_disabled).matched_path.length
        = path.length) ∧
      (∀ i j : ℕ, i ≤ j →
        j < (invoke_menu_item lookupScope scope path strategy allow_disabled).matched_path.length →
        (invoke_menu_item lookupScope scope path strategy allow_disabled).matched_path[i]?
          = some none →
        (invoke_menu_item lookupScope scope path strategy allow_disabled).matched_path[j]?
          = some none) := by
  intro f scope path st allow
  have key : ∃ pre : List (Option String),
      (invoke_menu_item f scope path st allow).matched_path
        = pre ++ List.replicate (path.length - pre.length) none ∧
      (∀ x ∈ pre, x ≠ none) ∧ pre.length ≤ path.length := by
    unfold invoke_menu_item
    cases hf : f scope with
    | none =>
      refine ⟨[], ?_, by simp, by simp⟩
      simp [List.map_const']
    | some root =>
      obtain ⟨pre, h1, h2, h3⟩ := resolvePath_shape path root st
      refine ⟨pre, ?_, h2, h3⟩
      cases hr : (resolvePath root path st).2 with
      | none => simpa [hr] using h1
      | some node =>
        simp only [hr]
        split <;> simpa using h1
  obtain ⟨pre, he, hp, hle⟩ := key
  exact ⟨shape_length he hle, shape_mono he hp⟩

/-- C1 witness: an unrecognized scope resolves to an all-null matched path of
the requested length, and position 1 is null as forced by position 0. -/
theorem c1_witness :
    ((invoke_menu_item (fun _ => none) "Menu_File" ["a", "b"] .exact false).matched_path.length
      = 2) ∧
    ((invoke_menu_item (fun _ => none) "Menu_File" ["a", "b"] .exact false).matched_path[1]?
      = some none) :=
  ⟨(c1_matched_path_length_and_prefix_monotone (fun _ => none) "Menu_File" ["a", "b"]
      .exact false).1,
   (c1_matched_path_length_and_prefix_monotone (fun _ => none) "Menu_File" ["a", "b"]
      .exact false).2 0 1 (by decide) (by decide) (by decide)⟩

/-- C7: when a node is fully resolved but every trigger mechanism fails, or
the node is reported disabled while `allow_disabled` is false, the operation
returns a normal `MenuInvocationResult` with `executed = false` (the embedded
operation is total — it cannot raise). -/
theorem c7_invocation_miss_reports_not_executed :
    ∀ (lookupScope : String → Option MenuNode) (scope : String) (path : List String)
      (strategy : MatchStrategy) (allow_disabled : Bool) (root node : MenuNode),
      lookupScope scope = some root →
      (resolvePath root path strategy).2 = some node →
      ((node.enabled = false ∧ allow_disabled = false) ∨ node.triggers.any id = false) →
      (invoke_menu_item lookupScope scope path strategy allow_disabled).executed = false := by
  intro f scope path st allow root node hf hr h
  unfold invoke_menu_item
  simp only [hf, hr]
  rcases h with ⟨he, ha⟩ | ht
  · rw [he, ha]
    rfl
  · split
    · rfl
    · exact ht

/-- C7 witness: a resolved node with an empty trigger list reports
`executed = false`. -/
theorem c7_witness :
    ((fun _ : String => some (MenuNode.mk (some "Root") true [] [])) "Menu_Tools"
      = some (MenuNode.mk (some "Root") true [] [])) ∧
    ((resolvePath (MenuNode.mk (some "Root") true [] []) [] .exact).2
      = some (MenuNode.mk (some "Root") true [] [])) ∧
    (invoke_menu_item (fun _ => some (MenuNode.mk (some "Root") true [] []))
      "Menu_Tools" [] .exact false).executed = false :=
  ⟨rfl, rfl,
    c7_invocation_miss_reports_not_executed
      (fun _ => some (MenuNode.mk (some "Root") true [] [])) "Menu_Tools" [] .exact false
      (MenuNode.mk (some "Root") true [] []) (MenuNode.mk (some "Root") true [] [])
      rfl rfl (Or.inr rfl)⟩

/-! ## Claim theorems: configuration coercion and persistence -/

/-- C5: under declared type `bool` the read coercion maps exactly the truthy
string tokens (of the canonical stripped/lower-cased form) to true and every
other value — including values that fail to parse — to false, and it always
produces a boolean (the embedded function is total, so it never raises).
The four concrete cases are the ones pinned by the repository's unit test. -/
theorem c5_bool_coercion_truthy_or_false :
    (_coerce_ini_result (.str "true") .bool = .boolean true) ∧
    (_coerce_ini_result (.str "yes") .bool = .boolean true) ∧
    (_coerce_ini_result (.str "0") .bool = .boolean false) ∧
    (_coerce_ini_result (.str "nope") .bool = .boolean false) ∧
    ∀ raw : PyVal,
      (_coerce_ini_result raw .bool = .boolean true ↔ pyCanon (pyStr raw) ∈ truthyTokens) ∧
      ∃ b : Bool, _coerce_ini_result raw .bool = .boolean b := by
  refine ⟨by decide, by decide, by decide, by decide, fun raw => ⟨?_, ⟨_, rfl⟩⟩⟩
  show PyVal.boolean (truthyTokens.contains (pyCanon (pyStr raw))) = .boolean true
    ↔ pyCanon (pyStr raw) ∈ truthyTokens
  constructor
  · intro h
    have hb : truthyTokens.contains (pyCanon (pyStr raw)) = true := by injection h
    exact List.elem_iff.mp hb
  · intro h
    have hb : truthyTokens.contains (pyCanon (pyStr raw)) = true := List.elem_iff.mpr h
    rw [hb]

/-- C6: the write dispatcher always attempts the flags-variant (flags `0`)
first — a store accepting it is written exactly once, as the recording store
shows — retries without flags only on a signature mismatch, and propagates a
genuine write error from either attempt; persisting with `apply` on a store
exposing both operations issues `Apply` then `Flush`. -/
theorem c6_write_dispatch_flags_first :
    ∀ (σ : Type) (st : IniStore σ) (s s2 : σ) (sec key : String) (v : PyVal),
      (st.writeFlags s sec key v 0 = .ok s2 → _write_ini_value st s sec key v = .ok s2) ∧
      (∀ m : String, st.writeFlags s sec key v 0 = .error (.failure m) →
        _write_ini_value st s sec key v = .error (.failure m)) ∧
      (∀ e : WriteErr, st.writeFlags s sec key v 0 = .error .sigMismatch →
        st.writeBare s sec key v = .error e →
        _write_ini_value st s sec key v = .error e) ∧
      (_write_ini_value recordingIni [] "Section" "Key" (.str "Value")
        = .ok [⟨"Section", "Key", .str "Value", some 0⟩]) ∧
      (_persist_ini_changes recordingIni [] .apply
        = ([⟨"Apply", "", .pynone, none⟩, ⟨"Flush", "", .pynone, none⟩], true)) := by
  intro σ st s s2 sec key v
  refine ⟨?_, ?_, ?_, rfl, rfl⟩
  · intro h
    unfold _write_ini_value
    rw [h]
  · intro m h
    unfold _write_ini_value
    rw [h]
  · intro e h1 h2
    unfold _write_ini_value
    rw [h1]
    exact h2

/-- C6 witness: the dispatcher applied to the recording store — one write
call, recorded with flags `0`. -/
theorem c6_witness :
    (recordingIni.writeFlags [] "Section" "Key" (.str "Value") 0
      = .ok [⟨"Section", "Key", .str "Value", some 0⟩]) ∧
    _write_ini_value recordingIni [] "Section" "Key" (.str "Value")
      = .ok [⟨"Section", "Key", .str "Value", some 0⟩] :=
  ⟨rfl, (c6_write_dispatch_flags_first (List RecCall) recordingIni []
      [⟨"Section", "Key", .str "Value", some 0⟩] "Section" "Key" (.str "Value")).1 rfl⟩

/-! ## Claim theorems: boundary validation, volume, Now Playing -/

/-- C8: a malformed caller input is rejected synchronously before any call
into the external application: an empty or whitespace-only JavaScript
payload makes `run_js` raise `ValueError` instead of reaching `runJSCode`,
and an empty menu path already fails the boundary validation of
`invoke_menu_item`'s `path` parameter, so the tool body never runs. -/
theorem c8_malformed_input_rejected_before_external_call :
    (∀ (code : String) (ec : Bool), pyStrip code = "" →
      run_js_precall code ec = .rejected "JavaScript payload cannot be empty") ∧
    (∀ (code : String) (ec w : Bool) (payload : String), pyStrip code = "" →
      run_js_precall code ec ≠ .callEngine w payload) ∧
    menu_path_accepted [] = false := by
  refine ⟨?_, ?_, rfl⟩
  · intro code ec h
    unfold run_js_precall
    rw [if_pos h]
  · intro code ec w payload h
    unfold run_js_precall
    rw [if_pos h]
    exact fun hx => JsDispatch.noConfusion hx

/-- C8 witness: a whitespace-only payload is rejected. -/
theorem c8_witness :
    (pyStrip "   " = "") ∧
    run_js_precall "   " true = .rejected "JavaScript payload cannot be empty" :=
  ⟨by decide,
    c8_malformed_input_rejected_before_external_call.1 "   " true (by decide)⟩

/-- C9: `set_volume` writes exactly `max(0, min(100, level))` to the player,
so the stored volume is always within 0–100 even for out-of-range levels. -/
theorem c9_set_volume_writes_clamped_level :
    ∀ (p : SDBPlayer) (level : Int),
      (set_volume p level).volume = max 0 (min 100 level) ∧
      0 ≤ (set_volume p level).volume ∧ (set_volume p level).volume ≤ 100 := by
  intro p level
  refine ⟨rfl, ?_, ?_⟩ <;> simp [set_volume]

/-- Splitting a `filterMap` over `range n` at one distinguished index `i`
where `f` yields nothing: the `g`-image equals the `f`-image with exactly the
index-`i` contribution inserted. -/
lemma filterMap_range_point_split {β : Type} (f g : ℕ → Option β) (n i : ℕ) (hi : i < n)
    (hagree : ∀ j : ℕ, j ≠ i → f j = g j) (hfi : f i = none) :
    ∃ A B : List β,
      List.filterMap g (List.range n) = A ++ (g i).toList ++ B ∧
      List.filterMap f (List.range n) = A ++ B := by
  obtain ⟨k, rfl⟩ : ∃ k, n = i + (k + 1) := ⟨n - i - 1, by omega⟩
  refine ⟨List.filterMap g (List.range i),
    List.filterMap (fun x => g (i + (x + 1))) (List.range k), ?_, ?_⟩
  · rw [List.range_add, List.filterMap_append, List.append_assoc]
    congr 1
    rw [List.range_succ_eq_map, List.map_cons, List.map_map, List.filterMap_cons,
      List.filterMap_map]
    simp only [Nat.add_zero]
    cases hgi : g i with
    | none =>
      simp only [hgi, Option.toList, List.nil_append]
      exact List.filterMap_congr fun x _ => rfl
    | some b =>
      simp only [hgi, Option.toList, List.singleton_append]
      exact congrArg (List.cons b) (List.filterMap_congr fun x _ => rfl)
  · rw [List.range_add, List.filterMap_append]
    congr 1
    · exact List.filterMap_congr fun x hx =>
        hagree x (by have := List.mem_range.mp hx; omega)
    · rw [List.range_succ_eq_map, List.map_cons, List.map_map, List.filterMap_cons,
        List.filterMap_map]
      simp only [Nat.add_zero, hfi]
      exact List.filterMap_congr fun x _ => hagree (i + (x + 1)) (by omega)

/-- C10: `now_playing` returns at most `min(limit, Count)` tracks (clamped at
zero), returns the empty list when the player exposes no `CurrentSongList`
or its `Count` is not positive, and an exception while reading one queue
index removes only that entry — every other index's track survives and the
call as a whole still returns normally. -/
theorem c10_now_playing_bounded_and_skips_failing_index :
    ∀ (player : PlayerQueue) (limit : Int),
      (player.currentSongList = none → now_playing player limit = []) ∧
      (∀ sl : SongCollection, player.currentSongList = some sl → sl.count ≤ 0 →
        now_playing player limit = []) ∧
      (∀ sl : SongCollection, player.currentSongList = some sl →
        (now_playing player limit).length ≤ (min limit sl.count).toNat) ∧
      (∀ (c : Int) (itm itmOk : ℕ → Except Unit (Option ComObj)) (i : ℕ)
        (song : Option ComObj),
        player.currentSongList = some ⟨c, itm⟩ →
        itm i = .error () → itmOk i = .ok song →
        (∀ j : ℕ, j ≠ i → itm j = itmOk j) →
        i < (min limit c).toNat →
        ∃ A B : List TrackInfo,
          now_playing ⟨some ⟨c, itmOk⟩⟩ limit = A ++ (_song_to_track song).toList ++ B ∧
          now_playing player limit = A ++ B) := by
  intro player limit
  refine ⟨?_, ?_, ?_, ?_⟩
  · intro h
    simp [now_playing, h]
  · intro sl h hc
    simp only [now_playing, h]
    rw [if_pos hc]
  · intro sl h
    simp only [now_playing, h]
    split
    · simp
    · have hlen := List.length_filterMap_le (npItem sl.item)
        (List.range ((max 0 (min limit sl.count)).toNat))
      rw [List.length_range] at hlen
      refine le_trans hlen ?_
      omega
  · intro c itm itmOk i song hp herr hok hagree hi
    have hc : ¬ c ≤ 0 := by
      intro hc0
      have hm : min limit c ≤ 0 := le_trans (min_le_right _ _) hc0
      omega
    have hi' : i < (max 0 (min limit c)).toNat := by omega
    obtain ⟨A, B, h1, h2⟩ := filterMap_range_point_split (npItem itm) (npItem itmOk)
      ((max 0 (min limit c)).toNat) i hi'
      (fun j hj => by unfold npItem; rw [hagree j hj])
      (by unfold npItem; rw [herr])
    refine ⟨A, B, ?_, ?_⟩
    · have hgi : npItem itmOk i = _song_to_track song := by unfold npItem; rw [hok]
      rw [hgi] at h1
      simp only [now_playing]
      rw [if_neg hc]
      exact h1
    · simp only [now_playing, hp]
      rw [if_neg hc]
      exact h2

/-- C10 witness: a player with no `CurrentSongList` yields the empty list. -/
theorem c10_witness :
    (PlayerQueue.mk none).currentSongList = none ∧ now_playing ⟨none⟩ 7 = [] :=
  ⟨rfl, (c10_now_playing_bounded_and_skips_failing_index ⟨none⟩ 7).1 rfl⟩
